import Mathlib

set_option autoImplicit false

/-!
Shallow embedding of the request-chaining core of the monitoring-controller
repository (src/api/v1alpha1/httpmonitor_utils.go). Pure Go functions become
Lean functions; the HTTP client and the real-time pieces (time.ParseDuration's
resulting deadline, the ticker goroutine) are passed in as an explicit
environment. Strings are modelled as Lean strings (lists of characters) and Go
ints as Int. Repository code that the provided sources only reference (the
Variable type, VariableList.newReplacer, Variable.ParseFromResponse, the type
declarations) is modelled from the spec; each such definition's doc comment
starts with "Modelled from the spec:".
-/

/-- Modelled from the spec: the origin of a variable (Go constant
FromTypeProvided plus the response-extraction origin; the type is referenced
by the provided sources but declared elsewhere in the repository). The spec
names header extraction and body-path extraction as examples; extraction is
modelled through the response-header form. -/
inductive FromType where
  | provided
  | responseHeader
deriving DecidableEq

/-- Modelled from the spec: a named string value usable in templating, either
supplied by configuration or extracted from a prior response (spec section 3).
The field origin models the Go field From. The field ref names the response
header an extraction rule reads; it is empty for provided variables. -/
structure Variable where
  name : String
  origin : FromType
  ref : String
  value : String
deriving DecidableEq

/-- Modelled from the spec: the placeholder token of a variable, written
with double curly braces around the name (spec sections 2 and 4.1). -/
def Variable.placeholder (v : Variable) : List Char :=
  ("\x7b\x7b" ++ v.name ++ "\x7d\x7d").data

/-- Modelled from the spec: VariableList.newReplacer (referenced at
httpmonitor_utils.go line 72, declared elsewhere in the repository) builds a
multi-pattern literal replacer that maps each variable's placeholder to its
value. Later variables with the same name shadow earlier ones
(last-match-wins, spec section 3), so the pair list consults later variables
first. -/
def newReplacerPairs (vars : List Variable) : List (List Char × List Char) :=
  vars.reverse.map (fun v => (v.placeholder, v.value.data))

/-- Whether the pattern p occurs as a contiguous subsequence of s. -/
def containsSeq (p : List Char) : List Char → Bool
  | [] => p.isEmpty
  | c :: rest => p.isPrefixOf (c :: rest) || containsSeq p rest

/-- The pattern that matches at the front of s, chosen in pair-list order
(Go's strings.Replacer resolves same-position matches in argument order).
Placeholder patterns are never empty, so empty patterns are ignored. -/
def findMatch (pairs : List (List Char × List Char)) (s : List Char) :
    Option (List Char × List Char) :=
  pairs.find? (fun p => !p.1.isEmpty && p.1.isPrefixOf s)

/-- One left-to-right pass of strings.Replacer.Replace: at each position the
first matching pattern is replaced and scanning resumes after the consumed
input; replacement text is never re-scanned. The fuel argument bounds the
number of consumed input characters and is initialised to the input length. -/
def replaceFuel (pairs : List (List Char × List Char)) : Nat → List Char → List Char
  | _, [] => []
  | 0, s => s
  | n + 1, c :: rest =>
    match findMatch pairs (c :: rest) with
    | some p => p.2 ++ replaceFuel pairs n (rest.drop (p.1.length - 1))
    | none => c :: replaceFuel pairs n rest

/-- strings.Replacer.Replace on a list of characters. -/
def replaceList (pairs : List (List Char × List Char)) (s : List Char) : List Char :=
  replaceFuel pairs s.length s

/-- strings.Replacer.Replace on a string (the replacer being the pair list
built by newReplacerPairs). -/
def replaceStr (pairs : List (List Char × List Char)) (s : String) : String :=
  ⟨replaceList pairs s.data⟩

/-- url.Values.Add / textproto.MIMEHeader.Add on an association-list model of
a Go map: append the value to the entry holding key k, or add a new entry at
the end. -/
def valuesAdd (m : List (String × List String)) (k : String) (v : String) :
    List (String × List String) :=
  match m with
  | [] => [(k, [v])]
  | e :: rest => if e.1 = k then (e.1, e.2 ++ [v]) :: rest else e :: valuesAdd rest k v

/-- Go's httpguts token table (valid header field bytes): letters, digits and
the fifteen RFC 7230 tchar symbols. -/
def isTokenChar (c : Char) : Bool :=
  let n := c.toNat
  decide ((48 ≤ n ∧ n ≤ 57) ∨ (65 ≤ n ∧ n ≤ 90) ∨ (97 ≤ n ∧ n ≤ 122) ∨
    n = 33 ∨ n = 35 ∨ n = 36 ∨ n = 37 ∨ n = 38 ∨ n = 39 ∨ n = 42 ∨ n = 43 ∨
    n = 45 ∨ n = 46 ∨ n = 94 ∨ n = 95 ∨ n = 96 ∨ n = 124 ∨ n = 126)

/-- The case-mapping loop of textproto.CanonicalMIMEHeaderKey: uppercase the
first letter and every letter following a hyphen, lowercase the rest. -/
def canonLoop : Bool → List Char → List Char
  | _, [] => []
  | upper, c :: rest =>
    let c2 :=
      if upper && decide (97 ≤ c.toNat) && decide (c.toNat ≤ 122) then
        Char.ofNat (c.toNat - 32)
      else if !upper && decide (65 ≤ c.toNat) && decide (c.toNat ≤ 90) then
        Char.ofNat (c.toNat + 32)
      else c
    c2 :: canonLoop (decide (c.toNat = 45)) rest

/-- textproto.CanonicalMIMEHeaderKey: keys containing a byte that is not a
valid header field byte are returned unmodified; otherwise the key is
case-canonicalized. http.Header.Add applies this to every key. -/
def canonicalMIMEHeaderKey (s : String) : String :=
  if s.data.all isTokenChar then ⟨canonLoop true s.data⟩ else s

/-- http.Header.Add: Add after canonicalizing the key. -/
def headerAdd (m : List (String × List String)) (k : String) (v : String) :
    List (String × List String) :=
  valuesAdd m (canonicalMIMEHeaderKey k) v

/-- replaceQueryParams (httpmonitor_utils.go lines 40-53): an empty map is
returned as-is; otherwise a new url.Values is built by Add-ing, for every key
and every value in order, the replacer-substituted value. Go maps are
modelled as association lists with distinct keys. -/
def replaceQueryParams (pairs : List (List Char × List Char))
    (v : List (String × List String)) : List (String × List String) :=
  if v.isEmpty then v
  else v.foldl (fun acc e =>
    e.2.foldl (fun acc2 val => valuesAdd acc2 e.1 (replaceStr pairs val)) acc) []

/-- replaceHeader (httpmonitor_utils.go lines 55-69): same loop as
replaceQueryParams, but http.Header.Add canonicalizes each key. -/
def replaceHeader (pairs : List (List Char × List Char))
    (v : List (String × List String)) : List (String × List String) :=
  if v.isEmpty then v
  else v.foldl (fun acc e =>
    e.2.foldl (fun acc2 val => headerAdd acc2 e.1 (replaceStr pairs val)) acc) []

/-- Byte-lexicographic order on strings modelled at the character level
(UTF-8 byte order and code-point order agree). -/
def charListLe : List Char → List Char → Bool
  | [], _ => true
  | _ :: _, [] => false
  | a :: as, b :: bs => decide (a.toNat < b.toNat) || (a == b && charListLe as bs)

/-- Insert one entry into a key-sorted entry list (url.Values.Encode sorts
its keys). -/
def insertSorted (e : String × List String) :
    List (String × List String) → List (String × List String)
  | [] => [e]
  | x :: xs => if charListLe e.1.data x.1.data then e :: x :: xs else x :: insertSorted e xs

/-- An uppercase hexadecimal digit. -/
def hexUpper (n : Nat) : Char :=
  if n < 10 then Char.ofNat (48 + n) else Char.ofNat (55 + n)

/-- The UTF-8 encoding of one character, as byte values. -/
def utf8Bytes (c : Char) : List Nat :=
  let n := c.toNat
  if n < 128 then [n]
  else if n < 2048 then [192 + n / 64, 128 + n % 64]
  else if n < 65536 then [224 + n / 4096, 128 + (n / 64) % 64, 128 + n % 64]
  else [240 + n / 262144, 128 + (n / 4096) % 64, 128 + (n / 64) % 64, 128 + n % 64]

/-- Bytes url.QueryEscape leaves unescaped: alphanumerics and - . _ ~ -/
def isUnreservedByte (n : Nat) : Bool :=
  decide ((48 ≤ n ∧ n ≤ 57) ∨ (65 ≤ n ∧ n ≤ 90) ∨ (97 ≤ n ∧ n ≤ 122) ∨
    n = 45 ∨ n = 46 ∨ n = 95 ∨ n = 126)

/-- url.QueryEscape on a single byte: space becomes +, unreserved bytes pass
through, everything else is percent-encoded in uppercase hex. -/
def escapeByte (n : Nat) : List Char :=
  if n = 32 then [Char.ofNat 43]
  else if isUnreservedByte n then [Char.ofNat n]
  else [Char.ofNat 37, hexUpper (n / 16), hexUpper (n % 16)]

/-- url.QueryEscape. -/
def queryEscape (s : String) : String :=
  ⟨((s.data.map utf8Bytes).flatten.map escapeByte).flatten⟩

/-- url.Values.Encode: keys sorted in byte order, each value escaped and
written as key=value, joined with ampersands; keys with no values contribute
nothing; an empty map encodes to the empty string. -/
def encodeValues (vs : List (String × List String)) : String :=
  let sorted := vs.foldr insertSorted []
  String.intercalate "&"
    (sorted.foldr (fun e acc =>
      e.2.map (fun v => queryEscape e.1 ++ "=" ++ queryEscape v) ++ acc) [])

/-- Split a character list at the first occurrence of sep; the second
component is none when sep does not occur. -/
def splitOnFirst (sep : Char) : List Char → List Char × Option (List Char)
  | [] => ([], none)
  | c :: rest =>
    if c = sep then ([], some rest)
    else
      let r := splitOnFirst sep rest
      (c :: r.1, r.2)

/-- url.Parse's decomposition as far as the core observes it: the fragment is
everything after the first hash, the raw query everything after the first
question mark of the remainder. (Escaping normalization and ForceQuery are
not modelled.) -/
def splitUrl (s : String) : String × String × String :=
  let f := splitOnFirst '#' s.data
  let q := splitOnFirst '?' f.1
  (⟨q.1⟩, ⟨(q.2.getD [])⟩, ⟨(f.2.getD [])⟩)

/-- url.Parse rejects URLs containing an ASCII control character. -/
def hasCtlByte (s : String) : Bool :=
  s.data.any (fun c => decide (c.toNat < 32) || decide (c.toNat = 127))

/-- http.NewRequest's method validation: non-empty and all token characters. -/
def validMethod (m : String) : Bool :=
  !m.isEmpty && m.data.all isTokenChar

/-- The error kinds of one request execution, named as in spec section 7; the
Go code carries them as error values whose messages embed the shown data. -/
inductive RequestError where
  | buildError (msg : String)
  | configError (msg : String)
  | transportError (msg : String)
  | nilResponse
  | unexpectedStatus (code : Int) (accepted : List Int)
  | extractionError (msg : String)
deriving DecidableEq

/-- Modelled from the spec: the RequestSpec fields consumed by the core (spec
section 6); the Go type declaration is not among the provided sources.
Map-valued fields are association lists with distinct keys. -/
structure HttpRequest where
  name : String
  method : String
  url : String
  headers : List (String × List String)
  body : String
  queryParams : List (String × List String)
  expectedResponseCodes : List Int
  timeout : String
  variablesFromResponse : List Variable
deriving DecidableEq

/-- The parts of an http.Response the core reads: status code, headers, body. -/
structure Response where
  statusCode : Int
  headers : List (String × List String)
  body : String
deriving DecidableEq

/-- The http.Request produced by BuildRequest, as far as the core determines
it: method, URL split into pre-query part, raw query and fragment, assigned
headers and body. -/
structure BuiltRequest where
  method : String
  preQuery : String
  rawQuery : String
  fragment : String
  headers : List (String × List String)
  body : String
deriving DecidableEq

/-- URL.String on the built request's URL: the pre-query part, then ?query
when the query is non-empty, then #fragment when the fragment is non-empty. -/
def BuiltRequest.finalUrl (b : BuiltRequest) : String :=
  b.preQuery ++ (if b.rawQuery = "" then "" else "?" ++ b.rawQuery) ++
    (if b.fragment = "" then "" else "#" ++ b.fragment)

/-- HttpRequest.BuildRequest (httpmonitor_utils.go lines 71-88): substitute
variables into the URL, body, query parameters and headers; construct the
request (http.NewRequest defaults an empty method to GET, validates the
method, and rejects control characters in the URL); assign the substituted
headers; then overwrite the URL's RawQuery with the encoding of the
substituted query-parameter map. The query string parsed out of the
substituted URL (splitUrl's middle component) is discarded by that
overwrite. -/
def HttpRequest.BuildRequest (r : HttpRequest) (availableVariables : List Variable) :
    Except RequestError BuiltRequest :=
  let replacer := newReplacerPairs availableVariables
  let finalUrl := replaceStr replacer r.url
  let body := replaceStr replacer r.body
  let query := replaceQueryParams replacer r.queryParams
  let header := replaceHeader replacer r.headers
  let method := if r.method = "" then "GET" else r.method
  if !validMethod method then
    .error (.buildError "net/http: invalid method")
  else if hasCtlByte finalUrl then
    .error (.buildError "net/url: invalid control character in URL")
  else
    let parts := splitUrl finalUrl
    .ok { method := method, preQuery := parts.1, rawQuery := encodeValues query,
          fragment := parts.2.2, headers := header, body := body }

/-- containsInt (httpmonitor_utils.go lines 90-97): linear membership scan. -/
def containsInt (needle : Int) : List Int → Bool
  | [] => false
  | val :: rest => val == needle || containsInt needle rest

/-- Modelled from the spec: Variable.ParseFromResponse (referenced at
httpmonitor_utils.go line 134, declared elsewhere in the repository) applies
one extraction rule to the response, filling the variable's value; a rule
that cannot locate its value fails (spec sections 3 and 4.2). -/
def Variable.ParseFromResponse (v : Variable) (resp : Response) : Except String Variable :=
  match v.origin with
  | .provided => .error ("variable " ++ v.name ++ " is not extracted from responses")
  | .responseHeader =>
    match (resp.headers.lookup v.ref).bind List.head? with
    | some s => .ok { v with value := s }
    | none => .error ("failed to extract variable " ++ v.name ++
        " from response header " ++ v.ref)

/-- Whether an Except value is ok. -/
def isOkE {ε : Type} {α : Type} : Except ε α → Bool
  | .ok _ => true
  | .error _ => false

/-- The extraction loop of handleResponse (httpmonitor_utils.go lines
133-138): run each rule in declared order; the first failure aborts the whole
request; on success the filled variables are collected in rule order. (Go
fills them by mutating the rule slots; the model returns them.) -/
def runExtractions (rules : List Variable) (resp : Response) :
    Except RequestError (List Variable) :=
  match rules with
  | [] => .ok []
  | v :: rest =>
    match v.ParseFromResponse resp with
    | .error m => .error (.extractionError m)
    | .ok v2 =>
      match runExtractions rest resp with
      | .error e => .error e
      | .ok vs => .ok (v2 :: vs)

/-- HttpRequest.handleResponse (httpmonitor_utils.go lines 121-141): a nil
response is an error; a status code outside the accepted set is an error
carrying the actual code and the accepted set; otherwise the extraction rules
run (Go's early return for an empty rule list coincides with runExtractions
on the empty list). -/
def HttpRequest.handleResponse (r : HttpRequest) (resp : Option Response) :
    Except RequestError (List Variable) :=
  match resp with
  | none => .error .nilResponse
  | some resp =>
    if !containsInt resp.statusCode r.expectedResponseCodes then
      .error (.unexpectedStatus resp.statusCode r.expectedResponseCodes)
    else
      runExtractions r.variablesFromResponse resp

/-- The environment of one request execution: what client.Do returns for a
built request (transport error or response), and whether time.ParseDuration
accepts the spec's timeout string. Both are external to the provided core
(httpclient.GetClient and the Go standard library); the parsed duration
itself only feeds the real-time context deadline, which the embedding does
not model. -/
structure NetEnv where
  send : BuiltRequest → Except String Response
  durOk : String → Bool

/-- HttpRequest.Do (httpmonitor_utils.go lines 100-119): build the request; a
malformed timeout duration fails before any network I/O; send; handle the
response. The first component records the request that was built, for
inspection. -/
def HttpRequest.Do (r : HttpRequest) (env : NetEnv) (availableVariables : List Variable) :
    Option BuiltRequest × Except RequestError (List Variable) :=
  match r.BuildRequest availableVariables with
  | .error e => (none, .error e)
  | .ok req =>
    if !env.durOk r.timeout then
      (some req, .error (.configError "time: invalid duration"))
    else
      match env.send req with
      | .error msg => (some req, .error (.transportError msg))
      | .ok resp => (some req, r.handleResponse (some resp))

deriving instance DecidableEq for Except

/-- One executed request of a run: the spec's name, the variable store
attached to it (httpRequest.availableVariables at line 167/184), the request
that was built, and the outcome. -/
structure TraceEntry where
  name : String
  attachedVars : List Variable
  built : Option BuiltRequest
  result : Except RequestError (List Variable)
deriving DecidableEq

/-- The variables a result contributes to the store: the extracted variables
on success, nothing on error. -/
def okVars : Except RequestError (List Variable) → List Variable
  | .ok vs => vs
  | .error _ => []

/-- All variables the traced requests appended to the store, in order. -/
def extractedOf (tr : List TraceEntry) : List Variable :=
  tr.foldr (fun e acc => okVars e.result ++ acc) []

/-- The monitoring loop of executeRequests (httpmonitor_utils.go lines
163-177): execute each spec with the current store attached; on error, stop
(break); on success, append the extracted variables (Go guards the append
with a non-emptiness test) and continue. Returns the trace of executed
requests and the final store. -/
def monitoringLoop (env : NetEnv) :
    List Variable → List HttpRequest → List TraceEntry × List Variable
  | avail, [] => ([], avail)
  | avail, r :: rest =>
    match r.Do env avail with
    | (b, .error e) =>
      ([{ name := r.name, attachedVars := avail, built := b, result := .error e }], avail)
    | (b, .ok vars) =>
      let tl := monitoringLoop env (if vars.isEmpty then avail else avail ++ vars) rest
      ({ name := r.name, attachedVars := avail, built := b, result := .ok vars } :: tl.1,
        tl.2)

/-- The cleanup loop of executeRequests (httpmonitor_utils.go lines 180-190):
every spec executes with the same store attached; errors are only reported;
extracted variables are never appended to the store. -/
def cleanupLoop (env : NetEnv) (avail : List Variable) :
    List HttpRequest → List TraceEntry
  | [] => []
  | r :: rest =>
    let dr := r.Do env avail
    { name := r.name, attachedVars := avail, built := dr.1, result := dr.2 }
      :: cleanupLoop env avail rest

/-- The seed store built at the top of executeRequests (lines 146-160): the
built-in random-8 variable (fixed placeholder value) followed by one provided
variable per monitor-level user variable. Go iterates the Spec.Variables map;
the model takes the user variables as an association list in some order. -/
def seedVariables (userVars : List (String × String)) : List Variable :=
  { name := "random-8", origin := FromType.provided, ref := "", value := "12345678" }
    :: userVars.map (fun kv =>
        { name := kv.1, origin := FromType.provided, ref := "", value := kv.2 })

/-- HttpMonitor.executeRequests (httpmonitor_utils.go lines 143-191): seed
the store, run the monitoring chain, then run the cleanup chain from the
monitoring chain's final store. Returns the monitoring trace, the cleanup
trace, and the monitoring chain's final store. -/
def executeRequests (env : NetEnv) (userVars : List (String × String))
    (requests cleanup : List HttpRequest) :
    List TraceEntry × List TraceEntry × List Variable :=
  let availableVariables := seedVariables userVars
  let m := monitoringLoop env availableVariables requests
  (m.1, cleanupLoop env m.2 cleanup, m.2)

/-- The scheduler state the provided sources consult: whether h.ticker is
already non-nil. -/
structure HttpMonitorState where
  tickerStarted : Bool
deriving DecidableEq

/-- The outcome of HttpMonitor.Start: a panic (process-level termination) or
the updated state. -/
inductive StartOutcome where
  | panicked (msg : String)
  | ok (s : HttpMonitorState)
deriving DecidableEq

/-- HttpMonitor.Start (httpmonitor_utils.go lines 193-212): panics when the
ticker is already set, otherwise establishes the ticker. The launched
goroutine and the periodic timer are real-time behaviour outside the
embedding. -/
def HttpMonitorState.Start (s : HttpMonitorState) : StartOutcome :=
  if s.tickerStarted then .panicked "tried to start an already started HttpMonitor"
  else .ok { tickerStarted := true }

/-- A request spec with neutral fields, specialised by the scenarios below. -/
def baseReq : HttpRequest :=
  { name := "", method := "GET", url := "/", headers := [], body := "",
    queryParams := [], expectedResponseCodes := [200], timeout := "5s",
    variablesFromResponse := [] }

/-- The extraction rule of the spec's example scenario: response header
X-Token into variable token. -/
def tokenRule : Variable :=
  { name := "token", origin := .responseHeader, ref := "X-Token", value := "" }

/-- RequestSpec A of the spec's example scenario. -/
def reqA : HttpRequest :=
  { baseReq with name := "A", url := "/login", variablesFromResponse := [tokenRule] }

/-- RequestSpec B of the spec's example scenario: URL template with the token
placeholder, empty query-parameter templates. -/
def reqB : HttpRequest :=
  { baseReq with name := "B", url := "/data?auth=\x7b\x7btoken\x7d\x7d" }

/-- The environment of the example scenario: /login answers 200 with header
X-Token: abc123; everything else answers a bare 200. -/
def envAB : NetEnv :=
  { send := fun req =>
      if req.preQuery = "/login" then
        .ok { statusCode := 200, headers := [("X-Token", ["abc123"])], body := "" }
      else .ok { statusCode := 200, headers := [], body := "" },
    durOk := fun _ => true }

/-- The monitoring run of the example scenario. -/
def runAB : List TraceEntry × List Variable :=
  monitoringLoop envAB (seedVariables []) [reqA, reqB]

/-- The token variable as extracted from A's response. -/
def tokenExtracted : Variable := { tokenRule with value := "abc123" }

/-- An extraction rule reading response header X-C into variable c, used by
the cleanup scenarios. -/
def extrC : Variable :=
  { name := "c", origin := .responseHeader, ref := "X-C", value := "" }

/-- Cleanup scenario for the cleanup-chain claim: d1 succeeds and extracts c,
d2 receives an unexpected 500, d3 succeeds. -/
def clnD1 : HttpRequest :=
  { baseReq with name := "d1", url := "/c1", variablesFromResponse := [extrC] }

/-- Second cleanup request of the cleanup scenario; its endpoint answers 500. -/
def clnD2 : HttpRequest := { baseReq with name := "d2", url := "/c2" }

/-- Third cleanup request of the cleanup scenario. -/
def clnD3 : HttpRequest := { baseReq with name := "d3", url := "/c3" }

/-- Environment of the cleanup scenario: /c1 answers 200 with X-C: v1, /c2
answers 500, everything else a bare 200. -/
def envCln : NetEnv :=
  { send := fun req =>
      if req.preQuery = "/c1" then
        .ok { statusCode := 200, headers := [("X-C", ["v1"])], body := "" }
      else if req.preQuery = "/c2" then
        .ok { statusCode := 500, headers := [], body := "" }
      else .ok { statusCode := 200, headers := [], body := "" },
    durOk := fun _ => true }

/-- The cleanup trace of the cleanup scenario, started from the seed store. -/
def runCln : List TraceEntry :=
  cleanupLoop envCln (seedVariables []) [clnD1, clnD2, clnD3]

/-- An extraction rule reading response header X-T into variable t, used by
the monitoring scenarios. -/
def extrT : Variable :=
  { name := "t", origin := .responseHeader, ref := "X-T", value := "" }

/-- Monitoring request of the store-invariant scenario: extracts t. -/
def monM1 : HttpRequest :=
  { baseReq with name := "m1", url := "/m1", variablesFromResponse := [extrT] }

/-- First cleanup request of the store-invariant scenario: extracts c. -/
def clnE1 : HttpRequest :=
  { baseReq with name := "e1", url := "/e1", variablesFromResponse := [extrC] }

/-- Second cleanup request of the store-invariant scenario. -/
def clnE2 : HttpRequest := { baseReq with name := "e2", url := "/e2" }

/-- Environment of the store-invariant scenario: /m1 answers 200 with
X-T: tv, /e1 answers 200 with X-C: cv, everything else a bare 200. -/
def envEx : NetEnv :=
  { send := fun req =>
      if req.preQuery = "/m1" then
        .ok { statusCode := 200, headers := [("X-T", ["tv"])], body := "" }
      else if req.preQuery = "/e1" then
        .ok { statusCode := 200, headers := [("X-C", ["cv"])], body := "" }
      else .ok { statusCode := 200, headers := [], body := "" },
    durOk := fun _ => true }

/-- The full run of the store-invariant scenario. -/
def runEx : List TraceEntry × List TraceEntry × List Variable :=
  executeRequests envEx [] [monM1] [clnE1, clnE2]

/-- Monitoring-failure scenario: f1 succeeds and extracts t, f2 receives an
unexpected 500, f3 would succeed but must never run. -/
def monF1 : HttpRequest :=
  { baseReq with name := "f1", url := "/f1", variablesFromResponse := [extrT] }

/-- Second monitoring request of the monitoring-failure scenario; its
endpoint answers 500. -/
def monF2 : HttpRequest := { baseReq with name := "f2", url := "/f2" }

/-- Third monitoring request of the monitoring-failure scenario. -/
def monF3 : HttpRequest := { baseReq with name := "f3", url := "/f3" }

/-- Environment of the monitoring-failure scenario. -/
def envMon : NetEnv :=
  { send := fun req =>
      if req.preQuery = "/f1" then
        .ok { statusCode := 200, headers := [("X-T", ["tv"])], body := "" }
      else if req.preQuery = "/f2" then
        .ok { statusCode := 500, headers := [], body := "" }
      else .ok { statusCode := 200, headers := [], body := "" },
    durOk := fun _ => true }

/-- The monitoring run of the monitoring-failure scenario. -/
def runMonEx : List TraceEntry × List Variable :=
  monitoringLoop envMon (seedVariables []) [monF1, monF2, monF3]

/-- A provided variable x with value v, for the templating claims. -/
def varX : Variable := { name := "x", origin := .provided, ref := "", value := "v" }

/-- A provided variable a whose value is itself a placeholder, to exhibit
single-pass substitution. -/
def varA : Variable :=
  { name := "a", origin := .provided, ref := "", value := "\x7b\x7bb\x7d\x7d" }

/-- A provided variable b with value X. -/
def varB : Variable := { name := "b", origin := .provided, ref := "", value := "X" }

/-- Extraction scenario for the rule-ordering claim: rule g1 reads X-G1
(present), rule g2 reads X-G2 (absent). -/
def ruleG1 : Variable :=
  { name := "g1", origin := .responseHeader, ref := "X-G1", value := "" }

/-- The failing rule of the extraction scenario. -/
def ruleG2 : Variable :=
  { name := "g2", origin := .responseHeader, ref := "X-G2", value := "" }

/-- The request of the extraction scenario. -/
def reqG : HttpRequest :=
  { baseReq with name := "g", url := "/g", variablesFromResponse := [ruleG1, ruleG2] }

/-- The response of the extraction scenario: accepted status, X-G1 present,
X-G2 absent. -/
def respG : Response :=
  { statusCode := 200, headers := [("X-G1", ["w1"])], body := "" }

/-- A 404 response, for the status-validation witness. -/
def resp404 : Response := { statusCode := 404, headers := [], body := "" }

theorem okVars_of_isOkE_false (res : Except RequestError (List Variable))
    (h : isOkE res = false) : okVars res = [] := by
  cases res with
  | ok a => simp [isOkE] at h
  | error e => rfl

@[simp] theorem extractedOf_nil : extractedOf [] = [] := rfl

@[simp] theorem extractedOf_cons (e : TraceEntry) (tr : List TraceEntry) :
    extractedOf (e :: tr) = okVars e.result ++ extractedOf tr := rfl

@[simp] theorem appendIfEmpty (avail vars : List Variable) :
    (if vars.isEmpty then avail else avail ++ vars) = avail ++ vars := by
  cases vars <;> simp

theorem extractedOf_take_of_err (tr : List TraceEntry) :
    ∀ (k : Nat) (e : TraceEntry), tr.length = k + 1 → tr.get? k = some e →
    okVars e.result = [] → extractedOf tr = extractedOf (tr.take k) := by
  induction tr with
  | nil =>
    intro k e hlen
    exact absurd hlen (by simp)
  | cons e0 tl ih =>
    intro k e hlen hget hok
    cases k with
    | zero =>
      have htl : tl = [] := List.eq_nil_of_length_eq_zero (by simpa using hlen)
      subst htl
      have he : e0 = e := by simpa [List.get?] using hget
      subst he
      simp [hok]
    | succ k =>
      have hlen2 : tl.length = k + 1 := by simpa using hlen
      have hget2 : tl.get? k = some e := by simpa [List.get?] using hget
      simp [ih k e hlen2 hget2 hok]

theorem cleanupLoop_spec (env : NetEnv) (avail : List Variable) :
    ∀ cs : List HttpRequest,
    (cleanupLoop env avail cs).length = cs.length
    ∧ ∀ j, j < cs.length →
        ((cleanupLoop env avail cs).get? j).map TraceEntry.attachedVars = some avail
        ∧ ((cleanupLoop env avail cs).get? j).map TraceEntry.name
            = (cs.get? j).map HttpRequest.name := by
  intro cs
  induction cs with
  | nil => exact ⟨rfl, fun j hj => absurd hj (Nat.not_lt_zero j)⟩
  | cons r rest ih =>
    constructor
    · simp [cleanupLoop, ih.1]
    · intro j hj
      cases j with
      | zero => simp [cleanupLoop, List.get?]
      | succ j =>
        have h2 := ih.2 j (Nat.lt_of_succ_lt_succ hj)
        simpa [cleanupLoop, List.get?] using h2

theorem monitoringLoop_spec (env : NetEnv) :
    ∀ (rs : List HttpRequest) (avail : List Variable),
    (monitoringLoop env avail rs).1.length ≤ rs.length
    ∧ ((monitoringLoop env avail rs).1.map TraceEntry.name
        = (rs.take (monitoringLoop env avail rs).1.length).map HttpRequest.name)
    ∧ (∀ j, j < (monitoringLoop env avail rs).1.length →
        ((monitoringLoop env avail rs).1.get? j).map TraceEntry.attachedVars
          = some (avail ++ extractedOf ((monitoringLoop env avail rs).1.take j)))
    ∧ ((monitoringLoop env avail rs).2
        = avail ++ extractedOf (monitoringLoop env avail rs).1)
    ∧ (∀ j e, (monitoringLoop env avail rs).1.get? j = some e → isOkE e.result = false →
        (monitoringLoop env avail rs).1.length = j + 1) := by
  intro rs
  induction rs with
  | nil =>
    intro avail
    refine ⟨Nat.le_refl 0, rfl, ?_, by simp [monitoringLoop], ?_⟩
    · intro j hj
      exact absurd hj (by simp [monitoringLoop])
    · intro j e hget
      rw [show (monitoringLoop env avail []).1 = [] from rfl] at hget
      simp [List.get?] at hget
  | cons r rest ih =>
    intro avail
    rcases hd : r.Do env avail with ⟨b, res⟩
    cases res with
    | error e =>
      have hm : monitoringLoop env avail (r :: rest)
          = ([{ name := r.name, attachedVars := avail, built := b, result := .error e }],
             avail) := by
        simp [monitoringLoop, hd]
      rw [hm]
      refine ⟨by simp, by simp, ?_, by simp [okVars], ?_⟩
      · intro j hj
        cases j with
        | zero => simp [List.get?]
        | succ j => exact absurd hj (by simp)
      · intro j e2 hget hfalse
        cases j with
        | zero => rfl
        | succ j => simp [List.get?] at hget
    | ok vars =>
      have IH := ih (avail ++ vars)
      have hm : monitoringLoop env avail (r :: rest)
          = ({ name := r.name, attachedVars := avail, built := b, result := .ok vars }
              :: (monitoringLoop env (avail ++ vars) rest).1,
             (monitoringLoop env (avail ++ vars) rest).2) := by
        simp only [monitoringLoop, hd]
        cases vars <;> simp
      rw [hm]
      refine ⟨?_, ?_, ?_, ?_, ?_⟩
      · simpa using Nat.succ_le_succ IH.1
      · simpa using IH.2.1
      · intro j hj
        cases j with
        | zero => simp [List.get?]
        | succ j =>
          have hj2 : j < (monitoringLoop env (avail ++ vars) rest).1.length := by
            simpa using hj
          have := IH.2.2.1 j hj2
          simp only [List.get?] at this ⊢
          rw [this]
          simp [okVars, List.append_assoc]
      · rw [IH.2.2.2.1]
        simp [okVars, List.append_assoc]
      · intro j e2 hget hfalse
        cases j with
        | zero =>
          have he : ({ name := r.name, attachedVars := avail, built := b, result := .ok vars } : TraceEntry) = e2 := by
            simpa [List.get?] using hget
          rw [← he] at hfalse
          simp [isOkE] at hfalse
        | succ j =>
          have hget2 : (monitoringLoop env (avail ++ vars) rest).1.get? j = some e2 := by
            simpa [List.get?] using hget
          have := IH.2.2.2.2 j e2 hget2 hfalse
          simp [this]

theorem replaceFuel_id (pairs : List (List Char × List Char)) :
    ∀ (s : List Char) (n : Nat),
    (∀ p ∈ pairs, containsSeq p.1 s = false) → replaceFuel pairs n s = s := by
  intro s
  induction s with
  | nil =>
    intro n h
    cases n <;> rfl
  | cons c rest ih =>
    intro n h
    cases n with
    | zero => rfl
    | succ n =>
      have hfind : findMatch pairs (c :: rest) = none := by
        cases hf : findMatch pairs (c :: rest) with
        | none => rfl
        | some p =>
          have hmem := List.mem_of_find?_eq_some hf
          have hpred := List.find?_some hf
          have hc := h p hmem
          simp only [containsSeq, Bool.or_eq_false_iff] at hc
          simp only [Bool.and_eq_true] at hpred
          rw [hc.1] at hpred
          exact absurd hpred.2 (by simp)
      have hrest : ∀ p ∈ pairs, containsSeq p.1 rest = false := by
        intro p hp
        have hc := h p hp
        simp only [containsSeq, Bool.or_eq_false_iff] at hc
        exact hc.2
      simp only [replaceFuel, hfind]
      rw [ih n hrest]

theorem containsInt_iff (needle : Int) :
    ∀ l : List Int, containsInt needle l = true ↔ needle ∈ l := by
  intro l
  induction l with
  | nil => simp [containsInt]
  | cons a l ih =>
    simp only [containsInt, Bool.or_eq_true, beq_iff_eq, ih, List.mem_cons]
    constructor
    · rintro (h | h)
      · exact Or.inl h.symm
      · exact Or.inr h
    · rintro (h | h)
      · exact Or.inl h.symm
      · exact Or.inr h

theorem valuesAdd_notMem (k : String) (v : String) :
    ∀ m : List (String × List String), (∀ e ∈ m, e.1 ≠ k) →
    valuesAdd m k v = m ++ [(k, [v])] := by
  intro m
  induction m with
  | nil => intro _; rfl
  | cons e rest ih =>
    intro h
    have hek : ¬ (e.1 = k) := h e (List.mem_cons_self e rest)
    simp [valuesAdd, hek, ih (fun x hx => h x (List.mem_cons_of_mem e hx))]

theorem valuesAdd_last (k v : String) (vs : List String) :
    ∀ m : List (String × List String), (∀ e ∈ m, e.1 ≠ k) →
    valuesAdd (m ++ [(k, vs)]) k v = m ++ [(k, vs ++ [v])] := by
  intro m
  induction m with
  | nil => simp [valuesAdd]
  | cons e rest ih =>
    intro h
    have hek : ¬ (e.1 = k) := h e (List.mem_cons_self e rest)
    simp [valuesAdd, hek, ih (fun x hx => h x (List.mem_cons_of_mem e hx))]

theorem foldVals (k : String) (f : String → String) :
    ∀ (vals : List String) (m : List (String × List String)) (vs : List String),
    (∀ e ∈ m, e.1 ≠ k) →
    vals.foldl (fun a x => valuesAdd a k (f x)) (m ++ [(k, vs)])
      = m ++ [(k, vs ++ vals.map f)] := by
  intro vals
  induction vals with
  | nil =>
    intro m vs h
    simp
  | cons x xs ih =>
    intro m vs h
    simp only [List.foldl_cons, List.map_cons]
    rw [valuesAdd_last k (f x) vs m h, ih m (vs ++ [f x]) h]
    simp

theorem foldValsNonempty (k : String) (f : String → String) :
    ∀ (vals : List String) (m : List (String × List String)),
    vals ≠ [] → (∀ e ∈ m, e.1 ≠ k) →
    vals.foldl (fun a x => valuesAdd a k (f x)) m = m ++ [(k, vals.map f)] := by
  intro vals m hne h
  cases vals with
  | nil => exact absurd rfl hne
  | cons x xs =>
    simp only [List.foldl_cons, List.map_cons]
    rw [valuesAdd_notMem k (f x) m h, foldVals k f xs m [f x] h]
    simp

theorem foldEntries (κ : String → String) (f : String → String) :
    ∀ (entries : List (String × List String)) (m : List (String × List String)),
    (entries.map (fun e => κ e.1)).Nodup →
    (∀ e ∈ entries, e.2 ≠ []) →
    (∀ e ∈ m, ∀ e2 ∈ entries, e.1 ≠ κ e2.1) →
    entries.foldl (fun acc e => e.2.foldl (fun a x => valuesAdd a (κ e.1) (f x)) acc) m
      = m ++ entries.map (fun e => (κ e.1, e.2.map f)) := by
  intro entries
  induction entries with
  | nil =>
    intro m _ _ _
    simp
  | cons e rest ih =>
    intro m hnd hne hdisj
    simp only [List.foldl_cons]
    rw [foldValsNonempty (κ e.1) f e.2 m (hne e (List.mem_cons_self e rest))
      (fun x hx => hdisj x hx e (List.mem_cons_self e rest))]
    rw [List.map_cons, List.nodup_cons] at hnd
    rw [ih (m ++ [(κ e.1, e.2.map f)]) hnd.2
      (fun x hx => hne x (List.mem_cons_of_mem e hx)) ?_]
    · simp
    · intro x hx e2 he2
      rcases List.mem_append.mp hx with hxm | hxs
      · exact hdisj x hxm e2 (List.mem_cons_of_mem e he2)
      · have hxe : x = (κ e.1, e.2.map f) := by simpa using hxs
        rw [hxe]
        intro hkk
        have hkk2 : κ e.1 = κ e2.1 := hkk
        exact hnd.1 (List.mem_map.mpr ⟨e2, he2, hkk2.symm⟩)

theorem replaceQueryParams_eq (pairs : List (List Char × List Char))
    (v : List (String × List String))
    (hnd : (v.map (fun e => e.1)).Nodup) (hne : ∀ e ∈ v, e.2 ≠ []) :
    replaceQueryParams pairs v
      = v.map (fun e => (e.1, e.2.map (fun s => replaceStr pairs s))) := by
  cases v with
  | nil => rfl
  | cons a rest =>
    have hfold := foldEntries (fun k => k) (fun s => replaceStr pairs s) (a :: rest) []
      (by simpa using hnd) hne (fun x hx => absurd hx (List.not_mem_nil x))
    simpa [replaceQueryParams] using hfold

theorem replaceHeader_eq (pairs : List (List Char × List Char))
    (v : List (String × List String))
    (hnd : (v.map (fun e => canonicalMIMEHeaderKey e.1)).Nodup)
    (hne : ∀ e ∈ v, e.2 ≠ []) :
    replaceHeader pairs v
      = v.map (fun e => (canonicalMIMEHeaderKey e.1,
          e.2.map (fun s => replaceStr pairs s))) := by
  cases v with
  | nil => rfl
  | cons a rest =>
    have hfold := foldEntries canonicalMIMEHeaderKey (fun s => replaceStr pairs s)
      (a :: rest) [] hnd hne (fun x hx => absurd hx (List.not_mem_nil x))
    simpa [replaceHeader, headerAdd] using hfold

theorem runExtractions_first_error (resp : Response) (v : Variable) (m : String)
    (hv : v.ParseFromResponse resp = .error m) :
    ∀ (pre : List Variable) (post : List Variable),
    (∀ u ∈ pre, isOkE (u.ParseFromResponse resp) = true) →
    runExtractions (pre ++ v :: post) resp = .error (.extractionError m) := by
  intro pre
  induction pre with
  | nil =>
    intro post _
    simp [runExtractions, hv]
  | cons u us ih =>
    intro post h
    have hu : isOkE (u.ParseFromResponse resp) = true := h u (List.mem_cons_self u us)
    obtain ⟨u2, hu2⟩ : ∃ u2, u.ParseFromResponse resp = .ok u2 := by
      cases hp : u.ParseFromResponse resp with
      | ok x => exact ⟨x, rfl⟩
      | error e => rw [hp] at hu; simp [isOkE] at hu
    simp only [List.cons_append, runExtractions, hu2]
    have hrest : runExtractions (us.append (v :: post)) resp
        = Except.error (RequestError.extractionError m) :=
      ih post (fun x hx => h x (List.mem_cons_of_mem u hx))
    rw [hrest]

/-- C1: counterexample at the spec's own example scenario. Request A succeeds
(200 with X-Token: abc123) and its extraction reaches the store, but the
request built for B has final URL "/data", not "/data?auth=abc123":
BuildRequest overwrites the URL's query string with the encoding of B's
(empty) rendered query-parameter map, so the query rendered into the URL is
discarded rather than merged. -/
theorem C1_counterexample :
    ((runAB.1.get? 1).bind TraceEntry.built).map BuiltRequest.finalUrl = some "/data"
    ∧ ((runAB.1.get? 1).bind TraceEntry.built).map BuiltRequest.finalUrl
        ≠ some "/data?auth=abc123" := by decide

/-- C1 (amended): in the two-request scenario, A's extraction succeeds and
B's URL template renders to /data?auth=abc123, but BuildRequest then replaces
the URL's query string with the encoding of the rendered query-parameter map;
B's query-parameter templates are empty, so the built request's raw query is
empty and its URL is /data. -/
theorem C1_amended_query_replaced :
    (runAB.1.get? 1).map TraceEntry.attachedVars
        = some (seedVariables [] ++ [tokenExtracted])
    ∧ replaceStr (newReplacerPairs (seedVariables [] ++ [tokenExtracted])) reqB.url
        = "/data?auth=abc123"
    ∧ ((runAB.1.get? 1).bind TraceEntry.built).map BuiltRequest.rawQuery = some ""
    ∧ ((runAB.1.get? 1).bind TraceEntry.built).map BuiltRequest.finalUrl
        = some "/data" := by decide

/-- C2: counterexample. In a cleanup chain d1, d2, d3 where d1 succeeds and
extracts variable c and d2 fails, all three requests do execute, but d3's
attached store does not contain c: the cleanup loop never appends extracted
variables to the store, so a cleanup request does not see variables extracted
by prior successful cleanup requests. -/
theorem C2_counterexample :
    runCln.length = 3
    ∧ (runCln.get? 0).map TraceEntry.result = some (.ok [{ extrC with value := "v1" }])
    ∧ (runCln.get? 1).map (fun e => isOkE e.result) = some false
    ∧ (runCln.get? 2).map (fun e => e.attachedVars.any (fun v => v.name == "c"))
        = some false := by decide

/-- C2 (amended): every request of a cleanup chain executes in order — a
failure is reported in its trace entry but never prevents the next request —
and every cleanup request sees exactly the store the cleanup chain was
started with (the monitoring chain's final store); variables extracted by
cleanup requests are never appended, so later cleanup requests do not see
them. -/
theorem C2_amended_cleanup_chain (env : NetEnv) (avail : List Variable)
    (cs : List HttpRequest) :
    (cleanupLoop env avail cs).length = cs.length
    ∧ ∀ j, j < cs.length →
        ((cleanupLoop env avail cs).get? j).map TraceEntry.attachedVars = some avail
        ∧ ((cleanupLoop env avail cs).get? j).map TraceEntry.name
            = (cs.get? j).map HttpRequest.name :=
  cleanupLoop_spec env avail cs

/-- C2 witness: in the concrete cleanup scenario the third cleanup request's
attached store is exactly the seed store the chain started with. -/
theorem C2_witness :
    (runCln.get? 2).map TraceEntry.attachedVars = some (seedVariables []) :=
  ((C2_amended_cleanup_chain envCln (seedVariables []) [clnD1, clnD2, clnD3]).2
    2 (by decide)).1

/-- C3: counterexample. Cleanup request e1 succeeds and extracts variable c,
yet cleanup request e2's attached store does not contain c: the store
attached to cleanup request N is not extended by the extractions of cleanup
requests 1..N-1, contradicting the claimed exactness for cleanup chains. -/
theorem C3_counterexample :
    (runEx.2.1.get? 0).map TraceEntry.result = some (.ok [{ extrC with value := "cv" }])
    ∧ (runEx.2.1.get? 1).map (fun e => e.attachedVars.any (fun v => v.name == "c"))
        = some false := by decide

/-- C3 (amended): the store attached to monitoring request N is exactly the
built-in variable, the user-provided variables, and the variables extracted
by monitoring requests 1..N-1; the monitoring chain's final store is the seed
plus everything the monitoring trace extracted; and every cleanup request's
attached store is exactly that final store (cleanup extractions are never
appended). -/
theorem C3_amended_store_invariant (env : NetEnv) (uv : List (String × String))
    (rs cs : List HttpRequest) :
    (∀ j, j < ((executeRequests env uv rs cs).1).length →
        (((executeRequests env uv rs cs).1).get? j).map TraceEntry.attachedVars
          = some (seedVariables uv ++ extractedOf (((executeRequests env uv rs cs).1).take j)))
    ∧ ((executeRequests env uv rs cs).2.2
        = seedVariables uv ++ extractedOf ((executeRequests env uv rs cs).1))
    ∧ (∀ j, j < ((executeRequests env uv rs cs).2.1).length →
        (((executeRequests env uv rs cs).2.1).get? j).map TraceEntry.attachedVars
          = some ((executeRequests env uv rs cs).2.2)) := by
  have hm := monitoringLoop_spec env rs (seedVariables uv)
  have hc := cleanupLoop_spec env (monitoringLoop env (seedVariables uv) rs).2 cs
  refine ⟨?_, ?_, ?_⟩
  · intro j hj
    have := hm.2.2.1 j (by simpa [executeRequests] using hj)
    simpa [executeRequests] using this
  · simpa [executeRequests] using hm.2.2.2.1
  · intro j hj
    have hj2 : j < cs.length := by
      rw [← hc.1]
      simpa [executeRequests] using hj
    have := (hc.2 j hj2).1
    simpa [executeRequests] using this

/-- C3 witness: in the store-invariant scenario the second cleanup request's
attached store equals the monitoring chain's final store. -/
theorem C3_witness :
    (runEx.2.1.get? 1).map TraceEntry.attachedVars = some runEx.2.2 :=
  (C3_amended_store_invariant envEx [] [monM1] [clnE1, clnE2]).2.2 1 (by decide)

/-- C4: in a monitoring chain, if the entry at position k of the run's trace
failed, then the trace has exactly k+1 entries (requests k+2..N never
executed this tick), those entries are the first k+1 specs in order, every
executed request's attached store is the seed plus the extractions of the
requests before it (so request k sees everything requests 1..k-1 extracted),
and the final store is the store of request k itself — request k's own
extractions are discarded, never appended. -/
theorem C4_monitoring_first_failure (env : NetEnv) (avail : List Variable)
    (rs : List HttpRequest) (k : Nat)
    (hk : ((monitoringLoop env avail rs).1.get? k).map (fun e => isOkE e.result)
        = some false) :
    (monitoringLoop env avail rs).1.length = k + 1
    ∧ k < rs.length
    ∧ (monitoringLoop env avail rs).1.map TraceEntry.name
        = (rs.take (k + 1)).map HttpRequest.name
    ∧ (∀ j, j < k + 1 →
        ((monitoringLoop env avail rs).1.get? j).map TraceEntry.attachedVars
          = some (avail ++ extractedOf ((monitoringLoop env avail rs).1.take j)))
    ∧ (monitoringLoop env avail rs).2
        = avail ++ extractedOf ((monitoringLoop env avail rs).1.take k) := by
  obtain ⟨e, hget, hfalse⟩ :
      ∃ e, (monitoringLoop env avail rs).1.get? k = some e ∧ isOkE e.result = false := by
    cases hg : (monitoringLoop env avail rs).1.get? k with
    | none => rw [hg] at hk; simp at hk
    | some e => rw [hg] at hk; exact ⟨e, rfl, by simpa using hk⟩
  have S := monitoringLoop_spec env rs avail
  have hlen := S.2.2.2.2 k e hget hfalse
  refine ⟨hlen, ?_, ?_, ?_, ?_⟩
  · have h1 := S.1
    omega
  · have h2 := S.2.1
    rw [hlen] at h2
    exact h2
  · intro j hj
    exact S.2.2.1 j (by omega)
  · rw [S.2.2.2.1, extractedOf_take_of_err (monitoringLoop env avail rs).1 k e hlen hget
      (okVars_of_isOkE_false e.result hfalse)]

/-- C4 witness: in the monitoring-failure scenario (f2 fails at position 1),
exactly two requests executed and the final store is the store before f2's
extractions. -/
theorem C4_witness :
    runMonEx.1.length = 2
    ∧ runMonEx.2 = seedVariables [] ++ extractedOf (runMonEx.1.take 1) := by
  have h := C4_monitoring_first_failure envMon (seedVariables [])
    [monF1, monF2, monF3] 1 (by decide)
  exact ⟨h.1, h.2.2.2.2⟩

/-- C5: containsInt decides exact set membership (not a range check);
handleResponse on a response whose status code is outside the accepted set
fails with the error carrying the actual code and the accepted set, and on a
response whose code is in the set it proceeds to the extraction phase. -/
theorem C5_status_validation :
    (∀ (needle : Int) (haystay : List Int),
      containsInt needle haystay = true ↔ needle ∈ haystay)
    ∧ (∀ (r : HttpRequest) (resp : Response),
        resp.statusCode ∉ r.expectedResponseCodes →
        r.handleResponse (some resp)
          = .error (.unexpectedStatus resp.statusCode r.expectedResponseCodes))
    ∧ (∀ (r : HttpRequest) (resp : Response),
        resp.statusCode ∈ r.expectedResponseCodes →
        r.handleResponse (some resp) = runExtractions r.variablesFromResponse resp) := by
  refine ⟨fun needle l => containsInt_iff needle l, ?_, ?_⟩
  · intro r resp hmem
    have hc : containsInt resp.statusCode r.expectedResponseCodes = false := by
      cases h : containsInt resp.statusCode r.expectedResponseCodes with
      | true => exact absurd ((containsInt_iff _ _).mp h) hmem
      | false => rfl
    simp [HttpRequest.handleResponse, hc]
  · intro r resp hmem
    have hc : containsInt resp.statusCode r.expectedResponseCodes = true :=
      (containsInt_iff _ _).mpr hmem
    simp [HttpRequest.handleResponse, hc]

/-- C5 witness: a 404 response against accepted set containing exactly 200 is
rejected with the error naming 404 and the accepted set. -/
theorem C5_witness :
    baseReq.handleResponse (some resp404) = .error (.unexpectedStatus 404 [200]) :=
  C5_status_validation.2.1 baseReq resp404 (by decide)

/-- C6: rendering a template in which no stored variable's placeholder occurs
returns it unchanged (hence an unmatched placeholder is not an error); an
unmatched placeholder amid matched ones is left verbatim in the output; and
substitution is a single pass — a substituted value that is itself a
placeholder is not re-scanned. -/
theorem C6_templating :
    (∀ (vars : List Variable) (s : String),
      (∀ p ∈ newReplacerPairs vars, containsSeq p.1 s.data = false) →
      replaceStr (newReplacerPairs vars) s = s)
    ∧ replaceStr (newReplacerPairs [varX]) "\x7b\x7bx\x7d\x7d-\x7b\x7by\x7d\x7d"
        = "v-\x7b\x7by\x7d\x7d"
    ∧ replaceStr (newReplacerPairs [varA, varB]) "\x7b\x7ba\x7d\x7d"
        = "\x7b\x7bb\x7d\x7d" := by
  refine ⟨?_, by decide, by decide⟩
  intro vars s h
  show (⟨replaceList (newReplacerPairs vars) s.data⟩ : String) = s
  rw [replaceList, replaceFuel_id (newReplacerPairs vars) s.data s.data.length h]

/-- C6 witness: a template without placeholders renders unchanged. -/
theorem C6_witness :
    replaceStr (newReplacerPairs [varX]) "plain text" = "plain text" :=
  C6_templating.1 [varX] "plain text" (by decide)

/-- C7: counterexample. A query-parameter key with an empty value list is
dropped from the output map, and a header key is MIME-canonicalized by
http.Header.Add, so neither map operation preserves the input key set for
every input. -/
theorem C7_counterexample :
    replaceQueryParams [] [("a", [])] = []
    ∧ (replaceHeader [] [("x-token", ["v"])]).map (fun e => e.1) = ["X-Token"]
    ∧ ¬ (["X-Token"] = ["x-token"]) := by decide

/-- C7 (amended): for maps with pairwise-distinct keys each holding at least
one value, query-parameter substitution preserves the key list and the
number and order of values per key, substituting inside every value; header
substitution does the same except that every key is MIME-canonicalized
(hence the key set is preserved exactly when the keys are already in
canonical form). -/
theorem C7_amended_map_substitution :
    (∀ (pairs : List (List Char × List Char)) (v : List (String × List String)),
      (v.map (fun e => e.1)).Nodup → (∀ e ∈ v, e.2 ≠ []) →
      replaceQueryParams pairs v
        = v.map (fun e => (e.1, e.2.map (fun s => replaceStr pairs s))))
    ∧ (∀ (pairs : List (List Char × List Char)) (v : List (String × List String)),
      (v.map (fun e => canonicalMIMEHeaderKey e.1)).Nodup → (∀ e ∈ v, e.2 ≠ []) →
      replaceHeader pairs v
        = v.map (fun e => (canonicalMIMEHeaderKey e.1,
            e.2.map (fun s => replaceStr pairs s)))) :=
  ⟨replaceQueryParams_eq, replaceHeader_eq⟩

/-- C7 witness: a two-value query-parameter map is substituted value-wise,
keys and value order preserved. -/
theorem C7_witness :
    replaceQueryParams (newReplacerPairs [varX]) [("q", ["\x7b\x7bx\x7d\x7d", "2"])]
      = [("q", ["v", "2"])] := by
  have h := C7_amended_map_substitution.1 (newReplacerPairs [varX])
    [("q", ["\x7b\x7bx\x7d\x7d", "2"])] (by decide) (by decide)
  rw [h]
  decide

/-- C8: extraction rules run in declared order — if the rules before position
i all succeed and rule i fails, the whole request fails with that rule's
extraction error — and when the trace entry at position k of a monitoring run
is an extraction error, the final store equals the store before request k
(request k's partial extractions never enter it), which is exactly the seed
plus the extractions appended by the earlier requests of the chain,
unchanged. -/
theorem C8_extraction_failure :
    (∀ (r : HttpRequest) (resp : Response) (pre : List Variable) (v : Variable)
        (post : List Variable) (m : String),
      r.variablesFromResponse = pre ++ v :: post →
      containsInt resp.statusCode r.expectedResponseCodes = true →
      (∀ u ∈ pre, isOkE (u.ParseFromResponse resp) = true) →
      v.ParseFromResponse resp = .error m →
      r.handleResponse (some resp) = .error (.extractionError m))
    ∧ (∀ (env : NetEnv) (avail : List Variable) (rs : List HttpRequest) (k : Nat)
        (m : String),
      ((monitoringLoop env avail rs).1.get? k).map TraceEntry.result
        = some (.error (.extractionError m)) →
      (monitoringLoop env avail rs).2
          = avail ++ extractedOf ((monitoringLoop env avail rs).1.take k)
      ∧ ((monitoringLoop env avail rs).1.get? k).map TraceEntry.attachedVars
          = some (avail ++ extractedOf ((monitoringLoop env avail rs).1.take k))) := by
  constructor
  · intro r resp pre v post m hsplit hstatus hok hv
    simp only [HttpRequest.handleResponse, hstatus, Bool.not_true, Bool.false_eq_true,
      if_false]
    rw [hsplit]
    exact runExtractions_first_error resp v m hv pre post hok
  · intro env avail rs k m hk
    obtain ⟨e, hget, herr⟩ :
        ∃ e, (monitoringLoop env avail rs).1.get? k = some e
          ∧ e.result = .error (.extractionError m) := by
      cases hg : (monitoringLoop env avail rs).1.get? k with
      | none => rw [hg] at hk; simp at hk
      | some e => rw [hg] at hk; exact ⟨e, rfl, by simpa using hk⟩
    have hfalse : isOkE e.result = false := by rw [herr]; rfl
    have S := monitoringLoop_spec env rs avail
    have hlen := S.2.2.2.2 k e hget hfalse
    constructor
    · rw [S.2.2.2.1, extractedOf_take_of_err (monitoringLoop env avail rs).1 k e hlen
        hget (okVars_of_isOkE_false e.result hfalse)]
    · exact S.2.2.1 k (by omega)

/-- C8 witness: in the extraction scenario (rule g1 succeeds, rule g2 fails)
the request fails with g2's extraction error. -/
theorem C8_witness :
    reqG.handleResponse (some respG)
      = .error (.extractionError
          "failed to extract variable g2 from response header X-G2") :=
  C8_extraction_failure.1 reqG respG [ruleG1] ruleG2 []
    "failed to extract variable g2 from response header X-G2"
    (by decide) (by decide) (by decide) (by decide)

/-- C10: starting a monitor panics exactly when its ticker is already set;
starting a freshly started monitor again therefore panics; a started monitor
started again panics with the double-start message. Every other operation of
the modelled core returns a value or an error — the double-start check is the
only panic site in the provided sources. -/
theorem C10_double_start_panics :
    (∀ s : HttpMonitorState, (∃ msg, s.Start = .panicked msg) ↔ s.tickerStarted = true)
    ∧ (∀ s s2 : HttpMonitorState, s.Start = .ok s2 → ∃ msg, s2.Start = .panicked msg)
    ∧ HttpMonitorState.Start { tickerStarted := true }
        = .panicked "tried to start an already started HttpMonitor" := by
  refine ⟨?_, ?_, rfl⟩
  · intro s
    constructor
    · rintro ⟨msg, hmsg⟩
      cases hs : s.tickerStarted with
      | true => rfl
      | false =>
        simp [HttpMonitorState.Start, hs] at hmsg
    · intro h
      refine ⟨"tried to start an already started HttpMonitor", ?_⟩
      simp [HttpMonitorState.Start, h]
  · intro s s2 h
    cases hs : s.tickerStarted with
    | true => simp [HttpMonitorState.Start, hs] at h
    | false =>
      simp [HttpMonitorState.Start, hs] at h
      refine ⟨"tried to start an already started HttpMonitor", ?_⟩
      rw [← h]
      rfl

/-- C10 witness: a started monitor cannot be started again. -/
theorem C10_witness :
    ∃ msg, HttpMonitorState.Start { tickerStarted := true } = .panicked msg :=
  (C10_double_start_panics.1 { tickerStarted := true }).mpr rfl
